import Mathlib

/-!
# Verification of `rc_depth_shift.py` (rating-curve depth-shift analysis)

Shallow embedding of the numerical pipeline in `src/research/ratingcurves/
rc_depth_shift.py`: the data loader (`RCData.get_hand_props`,
`RCData.get_hand_curves`, `RCData.get_usgsrc`), the curve fitter
(`RCDist.interp`), the Manning roughness back-calculator
(`RCDist.mannings_n`, `RCDist.optimize_n`) and the rating-number selection
of `RCDist.draw_xsect`.

Numeric values carried by the script are embedded as exact rationals where
the script only moves, compares and linearly combines them, and as real
numbers where the script applies `sqrt`, `log`, `exp` or non-integer powers
(floating point is idealized as exact arithmetic throughout).
-/

namespace RC

/-! ## Data loader: HAND hydraulic properties (`RCData.get_hand_props`) -/

/-- The meters-to-feet factor `3.28084` used at source lines 66-71. -/
def mFt : ℚ := 328084 / 100000

/-- `scipy.rint` (source line 72): round to the nearest integer, ties to the
nearest even integer (IEEE round-half-even, numpy's documented behavior). -/
def rint (x : ℚ) : ℤ :=
  if x - ⌊x⌋ < 1 / 2 then ⌊x⌋
  else if 1 / 2 < x - ⌊x⌋ then ⌊x⌋ + 1
  else if Even ⌊x⌋ then ⌊x⌋ else ⌊x⌋ + 1

/-- The per-row variables of the HAND hydraulic-properties array file
(`COMID`, `Slope`, `WetArea`, `HydraulicRadius`, `Length`, `Width`) and the
shared, non-row-indexed `StageHeight` axis. -/
structure HandPropsTbl where
  comid : List ℤ
  slopeRaw : List ℚ
  stageRaw : List ℚ
  wetAreaRaw : List (List ℚ)
  hydRadRaw : List (List ℚ)
  lenRaw : List ℚ
  widthRaw : List (List ℚ)

/-- The reach-specific attributes `get_hand_props` assigns when the COMID
check at source line 65 succeeds. -/
structure HandGeom where
  handarea : List ℚ
  handrad : List ℚ
  handslope : ℚ
  handlen : ℚ
  handwidth : List ℚ
deriving DecidableEq

/-- `RCData.get_hand_props` (source lines 55-72).  The first component is the
reach-specific geometry: the source assigns `self.handarea`, `self.handrad`,
`self.handslope`, `self.handlen`, `self.handwidth` only under the guard
`handc[idx] == comid`, so a mismatch leaves them unset — embedded as `none`.
The second component is `self.handstage`, computed unconditionally from the
shared stage axis: meters to feet then `scipy.rint`. -/
def get_hand_props (tbl : HandPropsTbl) (idx : ℕ) (comid : ℤ) :
    Option HandGeom × List ℚ :=
  ( if tbl.comid.getD idx 0 = comid then
      some { handarea := (tbl.wetAreaRaw.getD idx []).map (· * mFt ^ 2)
             handrad := (tbl.hydRadRaw.getD idx []).map (· * mFt)
             handslope := tbl.slopeRaw.getD idx 0
             handlen := tbl.lenRaw.getD idx 0 * mFt
             handwidth := (tbl.widthRaw.getD idx []).map (· * mFt) }
    else none,
    tbl.stageRaw.map fun x => ((rint (x * mFt) : ℤ) : ℚ) )

/-! ## Data loader: HAND rating curves (`RCData.get_hand_curves`) -/

/-- The variables of the HAND rating-curve array file: per-row `COMID` and
`Q_cfs`, and the shared (non-row-indexed) `H_ft` axis. -/
structure HandCurvesTbl where
  comid : List ℤ
  qRaw : List (List ℚ)
  hRaw : List ℚ

/-- `RCData.get_hand_curves` (source lines 74-81): `self.handq` is assigned
only under the COMID guard (line 79), `self.handh` unconditionally. -/
def get_hand_curves (tbl : HandCurvesTbl) (idx : ℕ) (comid : ℤ) :
    Option (List ℚ) × List ℚ :=
  (if tbl.comid.getD idx 0 = comid then some (tbl.qRaw.getD idx []) else none,
   tbl.hRaw)

/-! ## Data loader: observed USGS rating curves (`RCData.get_usgsrc`) -/

/-- One line of the fetched rating text: whether `re.search` with the
pattern of letters (source line 95) finds a letter in it, and the parsed
values of its first three tab-separated fields (`float(current[0])` raw
stage, `float(current[1])` shift magnitude, `float(current[2])` discharge). -/
structure ObsLine where
  hasAlpha : Bool
  stage : ℚ
  shift : ℚ
  q : ℚ
deriving DecidableEq

/-- The line loop of `get_usgsrc` (source lines 93-101), threading the
`findData` flag: the flag turns true at the first letter-free line and stays
true; from then on a line whose discharge field is at least 1 contributes the
pair `(discharge, stage - shift)`. -/
def usgsLoop : Bool → List ObsLine → List (ℚ × ℚ)
  | _, [] => []
  | findData, ln :: rest =>
    let fd := findData || !ln.hasAlpha
    if fd = true ∧ 1 ≤ ln.q then (ln.q, ln.stage - ln.shift) :: usgsLoop fd rest
    else usgsLoop fd rest

/-- The per-site body of `get_usgsrc` (source lines 88-104): run the line
loop, read `shift = usgsh[0]` — an IndexError, embedded as `none`, when no
row was retained — and normalize the heights by subtracting it.  Returns
`(usgsh normalized, usgsq)`. -/
def processSite (lines : List ObsLine) : Option (List ℚ × List ℚ) :=
  match ((usgsLoop false lines).map Prod.snd).head? with
  | none => none
  | some shift =>
    some (((usgsLoop false lines).map Prod.snd).map (· - shift),
          (usgsLoop false lines).map Prod.fst)

/-- Source line 50: the observation-site ids of a reach, in crosswalk row
order: `idlookup.loc[idlookup[FLComID] == comid][SOURCE_FEA].values`. -/
def usgsids (idlookup : List (ℤ × ℕ)) (comid : ℤ) : List ℕ :=
  (idlookup.filter fun p => p.1 == comid).map Prod.snd

/-- `RCData.get_usgsrc` over a site list (source lines 83-106), with the
fetch modelled as a function from site id to fetched lines.  Returns the
list of sites actually fetched (in order, the fetch at source line 88
happening before the site's rows are examined) and either the accumulated
`(usgsh, usgsq)` series or the IndexError raised at `usgsh[0]` when a site
retains no row. -/
def get_usgsrc (fetch : ℕ → List ObsLine) :
    List ℕ → List ℕ × Except Unit (List (List ℚ) × List (List ℚ))
  | [] => ([], Except.ok ([], []))
  | s :: rest =>
    match processSite (fetch s) with
    | none => ([s], Except.error ())
    | some hq =>
      let r := get_usgsrc fetch rest
      (s :: r.1,
       match r.2 with
       | Except.ok p => Except.ok (hq.1 :: p.1, hq.2 :: p.2)
       | Except.error e => Except.error e)

/-! ## Rating-number selection in `RCDist.draw_xsect` (source lines 210-224) -/

/-- One row of the fetched detailed-measurement table: the `chan_width`,
`gage_height_va` and `current_rating_nu` fields, `none` standing for an
empty field (which `filter(None, .)` rejects). -/
structure MeasRow where
  width : Option ℚ
  height : Option ℚ
  rating : Option ℚ
deriving DecidableEq

/-- Source line 210: `[(ind, float(r)) for ind, r in enumerate(col) if
filter(None, r)]` — the enumerated non-empty rating values. -/
def ratingsOf (col : List (Option ℚ)) : List (ℕ × ℚ) :=
  col.enum.filterMap fun p => p.2.map fun r => (p.1, r)

/-- Source lines 215-216: `rnos = zip(*ratings)[1];
most_recent = ratings[rnos.index(rnos[-1])][0]`.  Python's `list.index`
returns the position of the FIRST occurrence of its argument; `none` embeds
the IndexError raised on an empty `rnos`. -/
def most_recent (col : List (Option ℚ)) : Option ℕ :=
  let ratings := ratingsOf col
  let rnos := ratings.map Prod.snd
  match rnos.getLast? with
  | none => none
  | some last => some (ratings.getD (rnos.indexOf last) (0, 0)).1

/-- Source lines 222-224: the `(width/2, height)` pairs of the rows whose
width, height and rating fields are all non-empty and whose rating equals
`ratings[-1]`, the last non-empty rating value. -/
def draw_data (rows : List MeasRow) : Option (List (ℚ × ℚ)) :=
  match (rows.filterMap fun r => r.rating).getLast? with
  | none => none
  | some last => some (rows.filterMap fun r =>
      match r.width, r.height, r.rating with
      | some w, some h, some rt =>
        if rt = last then some (w / 2, h) else none
      | _, _, _ => none)

/-! ## Curve fitter (`RCDist.interp`, power-law branch, source lines 110-125) -/

/-- `scipy.polyfit(xs, ys, 1)` as `(slope, intercept)`: the degree-1
least-squares fit, in its closed form
`slope = (n*Σxy - Σx*Σy) / (n*Σx² - (Σx)²)`,
`intercept = (Σy - slope*Σx) / n`. -/
noncomputable def polyfit (xs ys : List ℝ) : ℝ × ℝ :=
  let n : ℝ := xs.length
  let sx := xs.sum
  let sy := ys.sum
  let sxy := (List.zipWith (· * ·) xs ys).sum
  let sxx := (xs.map fun x => x ^ 2).sum
  let b := (n * sxy - sx * sy) / (n * sxx - sx ^ 2)
  (b, (sy - b * sx) / n)

/-- The `(b, loga)` coefficients the power branch of `RCDist.interp` fits
(source lines 116-118): logs of both axes with the first term removed, then
`scipy.polyfit(logx, logy, 1)`. -/
noncomputable def interpCoeffs (x y : List ℝ) : ℝ × ℝ :=
  let logx := (x.map Real.log).drop 1
  let logy := (y.map Real.log).drop 1
  polyfit logx logy

/-- `RCDist.interp` with `kind = power` (source lines 115-120): the returned
function `lambda x: a * x**b` with `a = exp(loga)`. -/
noncomputable def interp (x y : List ℝ) : ℝ → ℝ :=
  let b := (interpCoeffs x y).1
  let a := Real.exp (interpCoeffs x y).2
  fun t => a * t ^ b

/-! ## Roughness back-calculator (`RCDist.mannings_n`, `RCDist.optimize_n`) -/

/-- numpy `.T` on a one-dimensional array (source line 133 applies it to
`disch` and to the result) is the identity. -/
def transpose1d (l : List ℝ) : List ℝ := l

/-- `RCDist.mannings_n` (source lines 127-134):
`(1.49 * area * hydrad**(2/3.0) * sqrt(slope) / disch.T).T`, element-wise
with the scalar slope broadcast. -/
noncomputable def mannings_n (area hydrad : List ℝ) (slope : ℝ)
    (disch : List ℝ) : List ℝ :=
  transpose1d (List.zipWith
    (fun ar q => 1.49 * ar.1 * ar.2 ^ ((2 : ℝ) / 3) * Real.sqrt slope / q)
    (area.zip hydrad) (transpose1d disch))

/-- The state `RCDist.optimize_n` reads: the model stage axis and geometry
(`self.handstage`, `self.handarea`, `self.handrad`, `self.handslope`) and
the per-site observed series (`self.usgsh`, `self.usgsq`). -/
structure RCState where
  handstage : List ℚ
  handarea : List ℚ
  handrad : List ℚ
  handslope : ℚ
  usgsh : List (List ℚ)
  usgsq : List (List ℚ)

/-- Python's `min(l, key=key)`: the first element of `l` whose key is
minimal (an element replaces the running minimum only when its key is
strictly smaller); `none` embeds the ValueError on an empty `l`. -/
def pyMinBy {α : Type} (key : α → ℚ) : List α → Option α
  | [] => none
  | x :: xs => some (xs.foldl (fun acc y => if key y < key acc then y else acc) x)

/-- Source line 143: `min(enumerate(obs), key=lambda x: abs(x[1] - h))`. -/
def nearest (obs : List ℚ) (h : ℚ) : Option (ℕ × ℚ) :=
  pyMinBy (fun p => |p.2 - h|) obs.enum

/-- One iteration of the loop at source lines 142-147 on the state
`(usgs_hlist, usgs_qlist)`.  The source also keeps `usgs_hset`, a set
holding exactly the elements of `usgs_hlist`; its membership test
`res[1] not in usgs_hset` is embedded as membership in the list. -/
def selStep (obs qs : List ℚ) (acc : List ℚ × List ℚ) (h : ℚ) :
    List ℚ × List ℚ :=
  (nearest obs h).elim acc fun iv =>
    if iv.2 ∈ acc.1 then acc
    else (acc.1 ++ [iv.2], acc.2 ++ [qs.getD iv.1 0])

/-- `zip` of three lists, truncating to the shortest (Python `zip` at source
line 153). -/
def zip3 {α β γ : Type} : List α → List β → List γ → List (α × β × γ)
  | a :: as, b :: bs, c :: cs => (a, b, c) :: zip3 as bs cs
  | _, _, _ => []

/-- The whole selection loop of source lines 139-147: `usgs_hlist` and
`usgs_qlist` accumulated over the stage axis, starting empty. -/
def selAcc (stage obs qs : List ℚ) : List ℚ × List ℚ :=
  stage.foldl (selStep obs qs) ([], [])

/-- Lines 148-153 of `optimize_n`: drop the last element of both selected
lists (`[:-1]`), truncate the geometry arrays to the reduced length
(`[:len(usgs_qlist)]`), back-calculate Manning's n and zip the triples. -/
noncomputable def optAssemble (st : RCState) (obs qs : List ℚ) :
    List (ℚ × ℚ × ℝ) :=
  zip3 ((selAcc st.handstage obs qs).1.dropLast)
    ((selAcc st.handstage obs qs).2.dropLast)
    (mannings_n
      ((st.handarea.take ((selAcc st.handstage obs qs).2.dropLast).length).map
        (Rat.cast : ℚ → ℝ))
      ((st.handrad.take ((selAcc st.handstage obs qs).2.dropLast).length).map
        (Rat.cast : ℚ → ℝ))
      (st.handslope : ℝ)
      (((selAcc st.handstage obs qs).2.dropLast).map (Rat.cast : ℚ → ℝ)))

/-- `RCDist.optimize_n` (source lines 136-153).  `none` embeds the
IndexError on `self.usgsh[0]`/`self.usgsq[0]` when there is no observed
site, and the ValueError from `min` over an empty enumeration when the
first observed series is empty while the stage axis is not. -/
noncomputable def optimize_n (st : RCState) : Option (List (ℚ × ℚ × ℝ)) :=
  match st.usgsh.head?, st.usgsq.head? with
  | some obs, some qs =>
    if obs = [] ∧ st.handstage ≠ [] then none
    else some (optAssemble st obs qs)
  | _, _ => none

/-! ## Specification-side selection (the claimed algorithm, stated
independently of the loop structure of `optimize_n`) -/

/-- Nearest-neighbor match of one stage step, specified through
`List.argmin`: the enumerated observed sample of minimum absolute distance
to `h`, ties broken by first position. -/
def specNearest (obs : List ℚ) (h : ℚ) : Option (ℕ × ℚ) :=
  obs.enum.argmin fun p => |p.2 - h|

/-- The matched `(observed height, observed discharge)` pair of every stage
step, in stage order. -/
def matchedPairs (stage obs qs : List ℚ) : List (ℚ × ℚ) :=
  stage.filterMap fun h => (specNearest obs h).map fun iv => (iv.2, qs.getD iv.1 0)

/-- Deduplication by first component, preserving first-seen order. -/
def dedupFirst : List (ℚ × ℚ) → List (ℚ × ℚ)
  | [] => []
  | p :: ps => p :: dedupFirst (ps.filter fun r => r.1 != p.1)
termination_by l => l.length
decreasing_by
  simp only [List.length_cons]
  exact Nat.lt_succ_of_le (List.length_filter_le _ _)

/-- The claimed sample selection: nearest-neighbor match of each stage step,
dedup by observed height keeping first occurrences, drop the last pair. -/
def specSelect (stage obs qs : List ℚ) : List (ℚ × ℚ) :=
  (dedupFirst (matchedPairs stage obs qs)).dropLast

/-! ## Supporting lemmas -/

lemma abs_sub_rint (x : ℚ) : |x - (rint x : ℚ)| ≤ 1 / 2 := by
  have h0 : (0 : ℚ) ≤ x - ⌊x⌋ := sub_nonneg.2 (Int.floor_le x)
  have h1 : x - ⌊x⌋ < 1 := by
    have := Int.lt_floor_add_one x
    push_cast at this ⊢
    linarith
  unfold rint
  split_ifs with hlt hgt hev
  · rw [abs_of_nonneg h0]
    linarith
  · rw [abs_of_nonpos (by push_cast; linarith)]
    push_cast
    linarith
  · have htie : x - ⌊x⌋ = 1 / 2 := le_antisymm (not_lt.1 hgt) (not_lt.1 hlt)
    rw [abs_of_nonneg h0]
    linarith
  · have htie : x - ⌊x⌋ = 1 / 2 := le_antisymm (not_lt.1 hgt) (not_lt.1 hlt)
    rw [abs_of_nonpos (by push_cast; linarith)]
    push_cast
    linarith

/-- `rint` returns a nearest integer: no integer is strictly closer. -/
lemma rint_nearest (x : ℚ) (m : ℤ) : |x - (rint x : ℚ)| ≤ |x - (m : ℚ)| := by
  rcases eq_or_ne m (rint x) with rfl | hne
  · exact le_refl _
  · have hz : m - rint x ≠ 0 := sub_ne_zero.2 hne
    have h1 : (1 : ℚ) ≤ |(m : ℚ) - (rint x : ℚ)| := by
      have hint := Int.one_le_abs hz
      have : ((1 : ℤ) : ℚ) ≤ ((|m - rint x| : ℤ) : ℚ) := Int.cast_le.2 hint
      push_cast at this
      linarith [this]
    have h2 := abs_sub_rint x
    have tri : |(m : ℚ) - (rint x : ℚ)| ≤ |x - (m : ℚ)| + |x - (rint x : ℚ)| := by
      have habs := abs_add ((m : ℚ) - x) (x - (rint x : ℚ))
      have hre : (m : ℚ) - x + (x - (rint x : ℚ)) = (m : ℚ) - (rint x : ℚ) := by ring
      rw [hre] at habs
      rw [abs_sub_comm (m : ℚ) x] at habs
      exact habs
    linarith

/-! ## Claims -/

/-- C9: geometry unit conversion is exact — hydraulic radius, length and
width in feet are the raw meter values times 3.28084, wet area is the raw
square-meter values times 3.28084², the stage axis is the raw meter values
times 3.28084 rounded to the nearest integer (no integer is closer), and
slope is returned unconverted. -/
theorem C9_unit_conversion (tbl : HandPropsTbl) (idx : ℕ) (comid : ℤ)
    (hc : tbl.comid.getD idx 0 = comid) :
    (get_hand_props tbl idx comid).1 =
      some { handarea := (tbl.wetAreaRaw.getD idx []).map
               fun x => x * (328084 / 100000 : ℚ) ^ 2
             handrad := (tbl.hydRadRaw.getD idx []).map
               fun x => x * (328084 / 100000 : ℚ)
             handslope := tbl.slopeRaw.getD idx 0
             handlen := tbl.lenRaw.getD idx 0 * (328084 / 100000 : ℚ)
             handwidth := (tbl.widthRaw.getD idx []).map
               fun x => x * (328084 / 100000 : ℚ) } ∧
    (get_hand_props tbl idx comid).2 =
      tbl.stageRaw.map (fun x => ((rint (x * (328084 / 100000)) : ℤ) : ℚ)) ∧
    ∀ x ∈ tbl.stageRaw, ∀ m : ℤ,
      |x * (328084 / 100000) - (rint (x * (328084 / 100000)) : ℚ)| ≤
        |x * (328084 / 100000) - (m : ℚ)| := by
  refine ⟨?_, ?_, ?_⟩
  · simp only [get_hand_props, if_pos hc]
    rfl
  · rfl
  · intro x _ m
    exact rint_nearest _ m

/-- C9 witness: the conversion evaluated on a one-row synthetic table. -/
theorem C9_unit_conversion_witness :
    ((⟨[42], [1/1000], [1], [[2]], [[3]], [5], [[7]]⟩ : HandPropsTbl).comid.getD 0 0
        = (42 : ℤ)) ∧
    (get_hand_props ⟨[42], [1/1000], [1], [[2]], [[3]], [5], [[7]]⟩ 0 42).1 =
      some { handarea := [(2 : ℚ)].map fun x => x * (328084 / 100000 : ℚ) ^ 2
             handrad := [(3 : ℚ)].map fun x => x * (328084 / 100000 : ℚ)
             handslope := 1/1000
             handlen := 5 * (328084 / 100000 : ℚ)
             handwidth := [(7 : ℚ)].map fun x => x * (328084 / 100000 : ℚ) } ∧
    (get_hand_props ⟨[42], [1/1000], [1], [[2]], [[3]], [5], [[7]]⟩ 0 42).2 =
      [(1 : ℚ)].map (fun x => ((rint (x * (328084 / 100000)) : ℤ) : ℚ)) := by
  have h := C9_unit_conversion ⟨[42], [1/1000], [1], [[2]], [[3]], [5], [[7]]⟩ 0 42
    (by decide)
  exact ⟨by decide, by simpa using h.1, by simpa using h.2.1⟩

/-- C5: when the row the index table points at stores a different reach id,
the loader yields no geometry and no rating-curve data for that reach (the
source skips the assignments at lines 66-70 and 80; the attributes are
never set, embedded as `none`). -/
theorem C5_stale_index_rejected (ptbl : HandPropsTbl) (ctbl : HandCurvesTbl)
    (pidx cidx : ℕ) (comid : ℤ)
    (hp : ptbl.comid.getD pidx 0 ≠ comid)
    (hc : ctbl.comid.getD cidx 0 ≠ comid) :
    (get_hand_props ptbl pidx comid).1 = none ∧
    (get_hand_curves ctbl cidx comid).1 = none := by
  constructor
  · simp only [get_hand_props, if_neg hp]
  · simp only [get_hand_curves, if_neg hc]

/-- C5 witness: a stale index whose row stores reach 43 while reach 42 is
requested. -/
theorem C5_stale_index_rejected_witness :
    ((⟨[43], [0], [0], [[0]], [[0]], [0], [[0]]⟩ : HandPropsTbl).comid.getD 0 0
        ≠ (42 : ℤ)) ∧
    (get_hand_props ⟨[43], [0], [0], [[0]], [[0]], [0], [[0]]⟩ 0 42).1 = none ∧
    (get_hand_curves ⟨[43], [[0]], [0]⟩ 0 42).1 = none := by
  refine ⟨by decide, ?_⟩
  exact C5_stale_index_rejected ⟨[43], [0], [0], [[0]], [[0]], [0], [[0]]⟩
    ⟨[43], [[0]], [0]⟩ 0 0 42 (by decide) (by decide)

/-- C3: evaluation of the rating-number selection at the rating-identifier
sequence `[1,1,2,2,1]`.  The kept identifier is indeed the last-occurring
value 1 (not the numeric maximum 2), and all rows carrying it are kept —
but `most_recent`, documented in the source as the "index of latest
occurrence of most recent rating number", evaluates to index 0, the FIRST
occurrence of the final value (Python `list.index` returns the first hit),
not index 4 as the claim requires. -/
theorem C3_rating_index_eval :
    most_recent [some 1, some 1, some 2, some 2, some 1] = some 0 ∧
    most_recent [some 1, some 1, some 2, some 2, some 1] ≠ some 4 ∧
    ((ratingsOf [some 1, some 1, some 2, some 2, some 1]).map Prod.snd).getLast?
      = some 1 ∧
    draw_data
      [⟨some 0, some 0, some 1⟩, ⟨some 2, some 1, some 1⟩,
       ⟨some 4, some 2, some 2⟩, ⟨some 6, some 3, some 2⟩,
       ⟨some 8, some 4, some 1⟩] =
      some [(0, 0), (1, 1), (4, 4)] := by
  refine ⟨by decide, by decide, by decide,
    by norm_num [draw_data, List.filterMap_cons]⟩

/-- C8: every discharge pair the line loop of `get_usgsrc` retains passed
the `>= 1` filter of source line 97. -/
lemma usgsLoop_q_ge_one (fd : Bool) (lines : List ObsLine) :
    ∀ p ∈ usgsLoop fd lines, 1 ≤ p.1 := by
  induction lines generalizing fd with
  | nil => intro p hp; simp [usgsLoop] at hp
  | cons ln rest ih =>
    intro p hp
    rw [usgsLoop] at hp
    split_ifs at hp with hcond
    · rcases List.mem_cons.1 hp with rfl | hmem
      · exact hcond.2
      · exact ih _ p hmem
    · exact ih _ p hp

/-- C8: every discharge value of the observed series a site returns is at
least 1; a parsed row with discharge below 1 never appears. -/
theorem C8_discharge_filter (lines : List ObsLine) (hq : List ℚ × List ℚ)
    (hres : processSite lines = some hq) : ∀ q ∈ hq.2, 1 ≤ q := by
  intro q hmem
  unfold processSite at hres
  split at hres
  · exact absurd hres (by simp)
  · simp only [Option.some.injEq] at hres
    have hq2 : hq.2 = (usgsLoop false lines).map Prod.fst := by
      rw [← hres]
    rw [hq2] at hmem
    rcases List.mem_map.1 hmem with ⟨p, hp, rfl⟩
    exact usgsLoop_q_ge_one false lines p hp

/-- C8 witness: a fetch holding a header line, one row below the filter and
two retained rows. -/
theorem C8_discharge_filter_witness :
    processSite
        [⟨true, 0, 0, 0⟩, ⟨false, 11, 1, 5⟩, ⟨false, 12, 1, 1/2⟩,
         ⟨false, 13, 1, 7⟩] =
      some ([0, 2], [5, 7]) ∧
    ∀ q ∈ ([(5 : ℚ), 7] : List ℚ), 1 ≤ q := by
  constructor
  · norm_num [processSite, usgsLoop]
  · have h := C8_discharge_filter
      [⟨true, 0, 0, 0⟩, ⟨false, 11, 1, 5⟩, ⟨false, 12, 1, 1/2⟩, ⟨false, 13, 1, 7⟩]
      ([0, 2], [5, 7]) (by norm_num [processSite, usgsLoop])
    exact h

/-- C7: when at least one row is retained, the returned heights are the
shift-corrected heights re-based by the first retained value, so the first
returned height is zero. -/
theorem C7_rebase_heights (lines : List ObsLine) (h0 : ℚ) (hs : List ℚ)
    (hr : (usgsLoop false lines).map Prod.snd = h0 :: hs) :
    processSite lines =
      some (((h0 :: hs).map fun x => x - h0),
            (usgsLoop false lines).map Prod.fst) ∧
    (((h0 :: hs).map fun x => x - h0).head? = some 0) := by
  constructor
  · unfold processSite
    rw [hr]
    rfl
  · simp

/-- C7 witness: shift-corrected heights `[10, 12, 15]` re-base to
`[0, 2, 5]`. -/
theorem C7_rebase_heights_witness :
    (usgsLoop false [⟨false, 11, 1, 5⟩, ⟨false, 13, 1, 7⟩, ⟨false, 16, 1, 9⟩]).map
        Prod.snd = (10 : ℚ) :: [12, 15] ∧
    processSite [⟨false, 11, 1, 5⟩, ⟨false, 13, 1, 7⟩, ⟨false, 16, 1, 9⟩] =
      some ([(0 : ℚ), 2, 5], [(5 : ℚ), 7, 9]) := by
  have h := C7_rebase_heights
    [⟨false, 11, 1, 5⟩, ⟨false, 13, 1, 7⟩, ⟨false, 16, 1, 9⟩] 10 [12, 15]
    (by norm_num [usgsLoop])
  refine ⟨by norm_num [usgsLoop], ?_⟩
  rw [h.1]
  norm_num [usgsLoop]

/-- C6 counterexample: with a crosswalk holding only reach 7, requesting
reach 5 resolves to an empty site list, `get_usgsrc` fetches nothing —
and, against the claim, raises nothing: it returns successfully with empty
series instead of the lookup-failure kind. -/
theorem C6_no_raise_counterexample :
    usgsids [((7 : ℤ), (111 : ℕ))] 5 = [] ∧
    get_usgsrc (fun _ => []) (usgsids [((7 : ℤ), (111 : ℕ))] 5) =
      ([], Except.ok ([], [])) ∧
    (get_usgsrc (fun _ => []) (usgsids [((7 : ℤ), (111 : ℕ))] 5)).2 ≠
      Except.error () := by
  refine ⟨rfl, rfl, ?_⟩
  intro h
  exact absurd h (by simp [usgsids, get_usgsrc])

/-- C6 amended: for a reach id absent from the crosswalk the resolved site
list is empty and no network fetch is performed, but no failure is raised —
`get_usgsrc` completes and returns empty observed series. -/
theorem C6_absent_comid_no_fetch (idlookup : List (ℤ × ℕ)) (comid : ℤ)
    (fetch : ℕ → List ObsLine)
    (habs : ∀ p ∈ idlookup, p.1 ≠ comid) :
    usgsids idlookup comid = [] ∧
    get_usgsrc fetch (usgsids idlookup comid) = ([], Except.ok ([], [])) := by
  have hnil : usgsids idlookup comid = [] := by
    unfold usgsids
    rw [List.filter_eq_nil_iff.2]
    · rfl
    · intro p hp
      simpa using habs p hp
  exact ⟨hnil, by rw [hnil]; rfl⟩

/-- C6 witness for the amended statement: reach 5 against a crosswalk that
only maps reach 7. -/
theorem C6_absent_comid_no_fetch_witness :
    (∀ p ∈ [((7 : ℤ), (111 : ℕ))], p.1 ≠ (5 : ℤ)) ∧
    usgsids [((7 : ℤ), (111 : ℕ))] 5 = [] ∧
    get_usgsrc (fun _ => [⟨false, 1, 0, 2⟩]) (usgsids [((7 : ℤ), (111 : ℕ))] 5) =
      ([], Except.ok ([], [])) := by
  refine ⟨by decide, ?_⟩
  exact C6_absent_comid_no_fetch [((7 : ℤ), (111 : ℕ))] 5
    (fun _ => [⟨false, 1, 0, 2⟩]) (by decide)

lemma getD_zipWith_zip (f : ℝ × ℝ → ℝ → ℝ) (a b c : List ℝ) (i : ℕ)
    (ha : i < a.length) (hb : i < b.length) (hc : i < c.length) :
    (List.zipWith f (a.zip b) c).getD i 0 =
      f (a.getD i 0, b.getD i 0) (c.getD i 0) := by
  induction a generalizing b c i with
  | nil => simp at ha
  | cons x xs ih =>
    cases b with
    | nil => simp at hb
    | cons y ys =>
      cases c with
      | nil => simp at hc
      | cons z zs =>
        cases i with
        | zero => rfl
        | succ n =>
          simp only [List.zip_cons_cons, List.zipWith_cons_cons,
            List.getD_cons_succ]
          exact ih ys zs n (by simpa using ha) (by simpa using hb)
            (by simpa using hc)

/-- C2: `mannings_n` is element-wise exactly
`1.49 * A * R^(2/3) * sqrt(S) / Q`, the scalar slope broadcast across the
arrays (numpy `.T` on the 1-D arrays being the identity). -/
theorem C2_mannings_formula (area hydrad : List ℝ) (slope : ℝ)
    (disch : List ℝ) (i : ℕ)
    (hs : 0 ≤ slope) (hq : ∀ q ∈ disch, 1 ≤ q)
    (ha : i < area.length) (hr : i < hydrad.length) (hd : i < disch.length) :
    (mannings_n area hydrad slope disch).getD i 0 =
      1.49 * area.getD i 0 * (hydrad.getD i 0) ^ ((2 : ℝ) / 3) *
        Real.sqrt slope / disch.getD i 0 := by
  unfold mannings_n transpose1d
  exact getD_zipWith_zip _ area hydrad disch i ha hr hd

/-- C2 witness: the single stage step A=10, R=2, S=0.0001, Q=50 of the
spec's test, with `sqrt(0.0001) = 0.01` made explicit. -/
theorem C2_mannings_formula_witness :
    (0 : ℝ) ≤ 1 / 10000 ∧ (∀ q ∈ [(50 : ℝ)], 1 ≤ q) ∧
    (mannings_n [10] [2] (1 / 10000) [50]).getD 0 0 =
      1.49 * 10 * (2 : ℝ) ^ ((2 : ℝ) / 3) * Real.sqrt (1 / 10000) / 50 ∧
    Real.sqrt ((1 : ℝ) / 10000) = 1 / 100 := by
  have happ := C2_mannings_formula [10] [2] (1 / 10000) [50] 0 (by norm_num)
    (by intro q hq; simp at hq; simp [hq]) (by norm_num) (by norm_num)
    (by norm_num)
  refine ⟨by norm_num, ?_, ?_, ?_⟩
  · intro q hq
    simp at hq
    simp [hq]
  · simpa using happ
  · rw [show ((1 : ℝ) / 10000) = (1 / 100) ^ 2 by norm_num,
      Real.sqrt_sq (by norm_num)]

lemma polyfit_three (a1 a2 a3 b1 b2 b3 : ℝ) :
    polyfit [a1, a2, a3] [b1, b2, b3] =
      ((3 * (a1 * b1 + a2 * b2 + a3 * b3) - (a1 + a2 + a3) * (b1 + b2 + b3)) /
         (3 * (a1 ^ 2 + a2 ^ 2 + a3 ^ 2) - (a1 + a2 + a3) ^ 2),
       ((b1 + b2 + b3) -
          (3 * (a1 * b1 + a2 * b2 + a3 * b3) - (a1 + a2 + a3) * (b1 + b2 + b3)) /
            (3 * (a1 ^ 2 + a2 ^ 2 + a3 ^ 2) - (a1 + a2 + a3) ^ 2) *
            (a1 + a2 + a3)) / 3) := by
  unfold polyfit
  simp only [List.zipWith_cons_cons, List.zipWith_nil_right, List.map_cons,
    List.map_nil, List.sum_cons, List.sum_nil, List.length_cons,
    List.length_nil]
  push_cast
  rw [Prod.mk.injEq]
  constructor
  · ring_nf
  · ring_nf

/-- C4: on `x = [1,2,4,8]`, `y = [1,4,16,64]` the power-law branch (first
sample dropped, least-squares line on the logs, intercept exponentiated)
recovers slope b = 2, coefficient a = exp(intercept) = 1 exactly, and the
returned function satisfies f(4) = 16. -/
theorem C4_power_fit :
    interpCoeffs [1, 2, 4, 8] [1, 4, 16, 64] = (2, 0) ∧
    Real.exp (interpCoeffs [1, 2, 4, 8] [1, 4, 16, 64]).2 = 1 ∧
    interp [1, 2, 4, 8] [1, 4, 16, 64] 4 = 16 := by
  have hL : Real.log 2 ≠ 0 := ne_of_gt (Real.log_pos one_lt_two)
  have h4 : Real.log (4 : ℝ) = 2 * Real.log 2 := by
    rw [show (4 : ℝ) = 2 ^ (2 : ℕ) by norm_num, Real.log_pow]
    push_cast
    ring
  have h8 : Real.log (8 : ℝ) = 3 * Real.log 2 := by
    rw [show (8 : ℝ) = 2 ^ (3 : ℕ) by norm_num, Real.log_pow]
    push_cast
    ring
  have h16 : Real.log (16 : ℝ) = 4 * Real.log 2 := by
    rw [show (16 : ℝ) = 2 ^ (4 : ℕ) by norm_num, Real.log_pow]
    push_cast
    ring
  have h64 : Real.log (64 : ℝ) = 6 * Real.log 2 := by
    rw [show (64 : ℝ) = 2 ^ (6 : ℕ) by norm_num, Real.log_pow]
    push_cast
    ring
  have hlists : interpCoeffs [1, 2, 4, 8] [1, 4, 16, 64]
      = polyfit [Real.log 2, Real.log 4, Real.log 8]
          [Real.log 4, Real.log 16, Real.log 64] := by
    unfold interpCoeffs
    norm_num
  have hden : (3 : ℝ) * (Real.log 2 ^ 2 + (2 * Real.log 2) ^ 2
        + (3 * Real.log 2) ^ 2)
      - (Real.log 2 + 2 * Real.log 2 + 3 * Real.log 2) ^ 2 ≠ 0 := by
    have h6 : (3 : ℝ) * (Real.log 2 ^ 2 + (2 * Real.log 2) ^ 2
          + (3 * Real.log 2) ^ 2)
        - (Real.log 2 + 2 * Real.log 2 + 3 * Real.log 2) ^ 2
          = 6 * Real.log 2 ^ 2 := by
      ring
    rw [h6]
    exact mul_ne_zero (by norm_num) (pow_ne_zero 2 hL)
  have hb : (3 * (Real.log 2 * (2 * Real.log 2) + 2 * Real.log 2 * (4 * Real.log 2)
        + 3 * Real.log 2 * (6 * Real.log 2))
      - (Real.log 2 + 2 * Real.log 2 + 3 * Real.log 2)
        * (2 * Real.log 2 + 4 * Real.log 2 + 6 * Real.log 2)) /
      (3 * (Real.log 2 ^ 2 + (2 * Real.log 2) ^ 2 + (3 * Real.log 2) ^ 2)
        - (Real.log 2 + 2 * Real.log 2 + 3 * Real.log 2) ^ 2) = 2 := by
    rw [div_eq_iff hden]
    ring
  have hco : interpCoeffs [1, 2, 4, 8] [1, 4, 16, 64] = (2, 0) := by
    rw [hlists, polyfit_three, h4, h8, h16, h64, hb]
    rw [Prod.mk.injEq]
    refine ⟨rfl, ?_⟩
    ring_nf
  refine ⟨hco, ?_, ?_⟩
  · rw [hco]
    simp
  · show Real.exp (interpCoeffs [1, 2, 4, 8] [1, 4, 16, 64]).2 *
      (4 : ℝ) ^ (interpCoeffs [1, 2, 4, 8] [1, 4, 16, 64]).1 = 16
    rw [hco]
    norm_num

lemma foldl_argAux_some {α : Type} (key : α → ℚ) (xs : List α) (a : α) :
    xs.foldl (List.argAux fun b c => key b < key c) (some a) =
      some (xs.foldl (fun acc y => if key y < key acc then y else acc) a) := by
  induction xs generalizing a with
  | nil => rfl
  | cons y t ih =>
    simp only [List.foldl_cons]
    rw [show (List.argAux (fun b c => key b < key c) (some a) y)
      = if key y < key a then some y else some a from rfl]
    by_cases h : key y < key a
    · rw [if_pos h, if_pos h, ih]
    · rw [if_neg h, if_neg h, ih]

lemma pyMinBy_eq_argmin {α : Type} (key : α → ℚ) (l : List α) :
    pyMinBy key l = l.argmin key := by
  cases l with
  | nil => rfl
  | cons x xs =>
    unfold pyMinBy List.argmin
    rw [List.foldl_cons]
    rw [show (List.argAux (fun b c => key b < key c) none x) = some x from rfl]
    exact (foldl_argAux_some key xs x).symm

lemma nearest_eq_specNearest (obs : List ℚ) (h : ℚ) :
    nearest obs h = specNearest obs h :=
  pyMinBy_eq_argmin _ _

def selLoop (obs qs : List ℚ) : List ℚ → List ℚ → List (ℚ × ℚ)
  | [], _ => []
  | h :: t, seen =>
    (nearest obs h).elim (selLoop obs qs t seen) fun iv =>
      if iv.2 ∈ seen then selLoop obs qs t seen
      else (iv.2, qs.getD iv.1 0) :: selLoop obs qs t (iv.2 :: seen)

lemma selLoop_congr (obs qs : List ℚ) (stage : List ℚ) :
    ∀ s1 s2 : List ℚ, (∀ x : ℚ, x ∈ s1 ↔ x ∈ s2) →
      selLoop obs qs stage s1 = selLoop obs qs stage s2 := by
  induction stage with
  | nil => intro s1 s2 _; rfl
  | cons h t ih =>
    intro s1 s2 hiff
    rw [selLoop, selLoop]
    cases hnear : nearest obs h with
    | none =>
      simp only [Option.elim_none]
      exact ih s1 s2 hiff
    | some iv =>
      simp only [Option.elim_some]
      by_cases hm : iv.2 ∈ s1
      · rw [if_pos hm, if_pos ((hiff _).1 hm)]
        exact ih s1 s2 hiff
      · rw [if_neg hm, if_neg (fun hc => hm ((hiff _).2 hc))]
        rw [ih (iv.2 :: s1) (iv.2 :: s2) (by intro x; simp [hiff x])]


lemma selStep_none {obs qs : List ℚ} {h : ℚ} (acc : List ℚ × List ℚ)
    (hnear : nearest obs h = none) : selStep obs qs acc h = acc := by
  simp [selStep, hnear]

lemma selStep_mem {obs qs : List ℚ} {h : ℚ} {iv : ℕ × ℚ} (acc : List ℚ × List ℚ)
    (hnear : nearest obs h = some iv) (hm : iv.2 ∈ acc.1) :
    selStep obs qs acc h = acc := by
  simp [selStep, hnear, hm]

lemma selStep_new {obs qs : List ℚ} {h : ℚ} {iv : ℕ × ℚ} (acc : List ℚ × List ℚ)
    (hnear : nearest obs h = some iv) (hm : iv.2 ∉ acc.1) :
    selStep obs qs acc h = (acc.1 ++ [iv.2], acc.2 ++ [qs.getD iv.1 0]) := by
  simp [selStep, hnear, hm]

lemma foldl_selStep_eq (obs qs : List ℚ) (stage : List ℚ) :
    ∀ hlist qlist : List ℚ,
      stage.foldl (selStep obs qs) (hlist, qlist) =
        (hlist ++ (selLoop obs qs stage hlist).map Prod.fst,
         qlist ++ (selLoop obs qs stage hlist).map Prod.snd) := by
  induction stage with
  | nil => intro hlist qlist; simp [selLoop]
  | cons h t ih =>
    intro hlist qlist
    rw [List.foldl_cons, selLoop]
    cases hnear : nearest obs h with
    | none =>
      simp only [Option.elim_none]
      rw [selStep_none (hlist, qlist) hnear]
      exact ih hlist qlist
    | some iv =>
      simp only [Option.elim_some]
      by_cases hm : iv.2 ∈ hlist
      · rw [selStep_mem (hlist, qlist) hnear hm]
        rw [if_pos hm]
        exact ih hlist qlist
      · rw [selStep_new (hlist, qlist) hnear hm]
        rw [if_neg hm, ih (hlist ++ [iv.2]) (qlist ++ [qs.getD iv.1 0])]
        rw [selLoop_congr obs qs t (hlist ++ [iv.2]) (iv.2 :: hlist)
          (by intro x; simp [or_comm])]
        simp

lemma selLoop_eq_dedup (obs qs : List ℚ) (stage : List ℚ) :
    ∀ seen : List ℚ,
      selLoop obs qs stage seen =
        dedupFirst ((matchedPairs stage obs qs).filter
          fun p => !(decide (p.1 ∈ seen))) := by
  induction stage with
  | nil => intro seen; simp [selLoop, matchedPairs, dedupFirst]
  | cons h t ih =>
    intro seen
    rw [selLoop]
    cases hnear : nearest obs h with
    | none =>
      have hmp : matchedPairs (h :: t) obs qs = matchedPairs t obs qs := by
        unfold matchedPairs
        rw [List.filterMap_cons, ← nearest_eq_specNearest, hnear]
        rfl
      simp only [Option.elim_none]
      rw [hmp, ih seen]
    | some iv =>
      have hmp : matchedPairs (h :: t) obs qs =
          (iv.2, qs.getD iv.1 0) :: matchedPairs t obs qs := by
        unfold matchedPairs
        rw [List.filterMap_cons, ← nearest_eq_specNearest, hnear]
        rfl
      simp only [Option.elim_some]
      rw [hmp]
      by_cases hm : iv.2 ∈ seen
      · rw [if_pos hm, List.filter_cons_of_neg (by simpa using hm), ih seen]
      · rw [if_neg hm, List.filter_cons_of_pos (by simpa using hm), dedupFirst,
          ih (iv.2 :: seen)]
        congr 1
        rw [List.filter_filter]
        congr 1
        apply List.filter_congr
        intro p _
        by_cases h1 : p.1 = iv.2 <;> by_cases h2 : p.1 ∈ seen <;>
          simp [h1, h2]

lemma selAcc_eq (stage obs qs : List ℚ) :
    selAcc stage obs qs =
      ((dedupFirst (matchedPairs stage obs qs)).map Prod.fst,
       (dedupFirst (matchedPairs stage obs qs)).map Prod.snd) := by
  unfold selAcc
  rw [foldl_selStep_eq obs qs stage [] []]
  rw [selLoop_eq_dedup obs qs stage []]
  simp

lemma dedupFirst_sublist : ∀ l : List (ℚ × ℚ), List.Sublist (dedupFirst l) l := by
  intro l
  induction l using dedupFirst.induct with
  | case1 => rw [dedupFirst]
  | case2 p ps ih =>
    rw [dedupFirst]
    exact List.Sublist.cons₂ p (ih.trans (List.filter_sublist ps))

lemma matchedPairs_length_le (stage obs qs : List ℚ) :
    (matchedPairs stage obs qs).length ≤ stage.length := by
  unfold matchedPairs
  exact List.length_filterMap_le _ _

lemma map_dropLast' {α β : Type} (f : α → β) (l : List α) :
    (l.map f).dropLast = l.dropLast.map f := by
  induction l with
  | nil => rfl
  | cons a t ih =>
    cases t with
    | nil => rfl
    | cons b t2 =>
      show (f a :: f b :: t2.map f).dropLast = f a :: ((b :: t2).dropLast).map f
      rw [List.dropLast_cons₂]
      exact congrArg (fun l => f a :: l) ih

lemma zip_map_fst_snd' {α β : Type} (l : List (α × β)) :
    (l.map Prod.fst).zip (l.map Prod.snd) = l := by
  induction l with
  | nil => rfl
  | cons p t ih => simp [ih]

lemma zip3_proj {α β : Type} {γ : Type} :
    ∀ (as : List α) (bs : List β) (cs : List γ),
      as.length = bs.length → bs.length = cs.length →
      (zip3 as bs cs).map (fun t => (t.1, t.2.1)) = as.zip bs := by
  intro as
  induction as with
  | nil =>
    intro bs cs h1 _
    cases bs with
    | nil => rfl
    | cons b bt => simp at h1
  | cons a at' ih =>
    intro bs cs h1 h2
    cases bs with
    | nil => simp at h1
    | cons b bt =>
      cases cs with
      | nil => simp at h2
      | cons c ct =>
        rw [zip3]
        simp only [List.map_cons, List.zip_cons_cons]
        rw [ih bt ct (by simpa using h1) (by simpa using h2)]

/-- C1: for a non-empty first observed series (and geometry arrays at least
as long as the stage axis), `optimize_n` succeeds and its triples, projected
to (observed height, observed discharge), are exactly the claimed selection:
nearest-neighbor match of every integer stage step (first occurrence wins
ties), dedup by observed height in first-seen order, last pair dropped. -/
theorem C1_optimize_selection (st : RCState) (obs qs : List ℚ)
    (hh : st.usgsh.head? = some obs) (hq : st.usgsq.head? = some qs)
    (hobs : obs ≠ [])
    (ha : st.handstage.length ≤ st.handarea.length)
    (hr : st.handstage.length ≤ st.handrad.length) :
    optimize_n st = some (optAssemble st obs qs) ∧
    (optAssemble st obs qs).map (fun t => (t.1, t.2.1)) =
      specSelect st.handstage obs qs := by
  constructor
  · unfold optimize_n
    rw [hh, hq]
    exact if_neg fun hc => hobs hc.1
  · have hm : (dedupFirst (matchedPairs st.handstage obs qs)).length ≤
        st.handstage.length :=
      le_trans (dedupFirst_sublist _).length_le
        (matchedPairs_length_le st.handstage obs qs)
    unfold optAssemble specSelect
    rw [selAcc_eq]
    simp only [map_dropLast']
    set P := dedupFirst (matchedPairs st.handstage obs qs) with hP
    have hdl : P.dropLast.length ≤ st.handstage.length := by
      rw [List.length_dropLast]
      omega
    have hlenq : (P.dropLast.map Prod.snd).length = P.dropLast.length := by
      simp
    have hmann : (mannings_n
        ((st.handarea.take (P.dropLast.map Prod.snd).length).map (Rat.cast : ℚ → ℝ))
        ((st.handrad.take (P.dropLast.map Prod.snd).length).map (Rat.cast : ℚ → ℝ))
        (st.handslope : ℝ)
        ((P.dropLast.map Prod.snd).map (Rat.cast : ℚ → ℝ))).length =
        P.dropLast.length := by
      unfold mannings_n transpose1d
      rw [List.length_zipWith, List.length_zip]
      simp only [List.length_map, List.length_take, hlenq]
      omega
    rw [zip3_proj _ _ _ (by simp) (by rw [hmann, hlenq])]
    exact zip_map_fst_snd' _

/-- C1 witness: the selection evaluated on a concrete four-step state. -/
theorem C1_optimize_selection_witness :
    ((⟨[0, 1, 2, 3], [10, 10, 10, 10], [2, 2, 2, 2], 1/10000,
        [[0, 1, 5]], [[5, 20, 80]]⟩ :
      RCState).usgsh.head? = some [0, 1, 5]) ∧
    ((⟨[0, 1, 2, 3], [10, 10, 10, 10], [2, 2, 2, 2], 1/10000,
        [[0, 1, 5]], [[5, 20, 80]]⟩ :
      RCState).usgsq.head? = some [5, 20, 80]) ∧
    (optimize_n
        ⟨[0, 1, 2, 3], [10, 10, 10, 10], [2, 2, 2, 2], 1/10000,
          [[0, 1, 5]], [[5, 20, 80]]⟩ =
      some (optAssemble
        ⟨[0, 1, 2, 3], [10, 10, 10, 10], [2, 2, 2, 2], 1/10000,
          [[0, 1, 5]], [[5, 20, 80]]⟩
        [0, 1, 5] [5, 20, 80]) ∧
     (optAssemble
        ⟨[0, 1, 2, 3], [10, 10, 10, 10], [2, 2, 2, 2], 1/10000,
          [[0, 1, 5]], [[5, 20, 80]]⟩
        [0, 1, 5] [5, 20, 80]).map
          (fun t => (t.1, t.2.1)) =
      specSelect [0, 1, 2, 3] [0, 1, 5] [5, 20, 80]) := by
  refine ⟨by decide, by decide, ?_⟩
  exact C1_optimize_selection
    ⟨[0, 1, 2, 3], [10, 10, 10, 10], [2, 2, 2, 2], 1/10000,
      [[0, 1, 5]], [[5, 20, 80]]⟩
    [0, 1, 5] [5, 20, 80]
    (by decide) (by decide) (by decide) (by decide) (by decide)

lemma optAssemble_congr (s1 s2 : RCState) (obs qs : List ℚ)
    (h1 : s1.handstage = s2.handstage) (h2 : s1.handarea = s2.handarea)
    (h3 : s1.handrad = s2.handrad) (h4 : s1.handslope = s2.handslope) :
    optAssemble s1 obs qs = optAssemble s2 obs qs := by
  unfold optAssemble
  rw [h1, h2, h3, h4]

/-- C10: `optimize_n` reads only the model geometry and the FIRST observed
site; two states agreeing on those (and on the heads of the observed
serieses) yield identical output, whatever further sites hold. -/
theorem C10_first_site_only (s1 s2 : RCState)
    (h1 : s1.handstage = s2.handstage) (h2 : s1.handarea = s2.handarea)
    (h3 : s1.handrad = s2.handrad) (h4 : s1.handslope = s2.handslope)
    (h5 : s1.usgsh.head? = s2.usgsh.head?)
    (h6 : s1.usgsq.head? = s2.usgsq.head?) :
    optimize_n s1 = optimize_n s2 := by
  unfold optimize_n
  rw [h5, h6, h1]
  cases s2.usgsh.head? with
  | none => rfl
  | some obs =>
    cases s2.usgsq.head? with
    | none => rfl
    | some qs =>
      show (if obs = [] ∧ s2.handstage ≠ [] then none
          else some (optAssemble s1 obs qs)) =
        (if obs = [] ∧ s2.handstage ≠ [] then none
          else some (optAssemble s2 obs qs))
      rw [optAssemble_congr s1 s2 obs qs h1 h2 h3 h4]

/-- C10 witness: a second state carrying an extra observed site yields the
same output. -/
theorem C10_first_site_only_witness :
    ((⟨[0, 1], [1, 1], [1, 1], 1, [[1, 2]], [[3, 4]]⟩ :
        RCState).usgsh.head? =
      (⟨[0, 1], [1, 1], [1, 1], 1, [[1, 2], [9, 9]], [[3, 4], [8, 8]]⟩ :
        RCState).usgsh.head?) ∧
    optimize_n (⟨[0, 1], [1, 1], [1, 1], 1, [[1, 2]], [[3, 4]]⟩ : RCState) =
      optimize_n
        (⟨[0, 1], [1, 1], [1, 1], 1, [[1, 2], [9, 9]], [[3, 4], [8, 8]]⟩ :
          RCState) := by
  refine ⟨by decide, ?_⟩
  exact C10_first_site_only
    ⟨[0, 1], [1, 1], [1, 1], 1, [[1, 2]], [[3, 4]]⟩
    ⟨[0, 1], [1, 1], [1, 1], 1, [[1, 2], [9, 9]], [[3, 4], [8, 8]]⟩
    rfl rfl rfl rfl (by decide) (by decide)


end RC
